import Mathlib

/-!
Verification of the date-range engine of pandas/core/daterange.py: the lazy
XDateRange generator and the cached, sliceable DateRange materialized range.

Timestamps are modelled as integers counting minutes, so a calendar day spans
DAY = 1440 minutes; day numbers, midnight normalization and weekday arithmetic
are all explicit.  Offsets (the datetools capability the module consumes) are
modelled as a record of operations together with the algebraic laws the offset
library guarantees; concrete instances (fixed strides, business days, a
normalizing daily offset) are provided and proved lawful.
-/

set_option linter.unusedVariables false
set_option linter.unnecessarySeqFocus false

/-- Number of minutes in a calendar day. -/
def DAY : Int := 1440

/-- Modelled from the spec: datetools.normalize_date resets a timestamp to the
midnight of its calendar day. -/
def normalize_date (d : Int) : Int := DAY * (d / DAY)

/-- Modelled from the spec: the external offset capability (a datetools
DateOffset).  onOffset tests membership of the offset grid, applyN d k is the
Python expression d + k * offset (which rolls an off-grid date onto the grid),
and the three flags mirror isAnchored(), isinstance(offset, Tick) and the
_normalizeFirst attribute.  The Prop fields are the laws the offset library
guarantees for every offset and that the proofs below rely on. -/
structure Offset where
  oid : Nat
  onOffset : Int → Bool
  applyN : Int → Int → Int
  isAnchored : Bool
  isTick : Bool
  normalizeFirst : Bool
  apply_mono : ∀ d, d < applyN d 1
  apply_onOffset : ∀ d, onOffset (applyN d 1) = true
  applyNeg_onOffset : ∀ d, onOffset (applyN d (-1)) = true
  applyN_onOffset : ∀ d k, onOffset d = true → onOffset (applyN d k) = true
  apply_zero : ∀ d, onOffset d = true → applyN d 0 = d
  apply_succ : ∀ d k, onOffset d = true → applyN d (k + 1) = applyN (applyN d k) 1
  apply_inv : ∀ d, onOffset d = true → applyN (applyN d 1) (-1) = d
  norm_onOffset : normalizeFirst = true → ∀ d, onOffset d = true →
    onOffset (normalize_date d) = true
  apply_norm : normalizeFirst = true → ∀ d k, normalize_date d = d →
    normalize_date (applyN d k) = applyN d k

/-- Modelled from the spec: DateOffset.rollforward rolls a date forward to the
next grid point and is the identity on dates already on the grid. -/
def Offset.rollforward (off : Offset) (d : Int) : Int :=
  if off.onOffset d then d else off.applyN d 1

/-- Modelled from the spec: DateOffset.rollback rolls a date backward to the
previous grid point and is the identity on dates already on the grid. -/
def Offset.rollback (off : Offset) (d : Int) : Int :=
  if off.onOffset d then d else off.applyN d (-1)

theorem Offset.applyNeg_inv (off : Offset) (d : Int)
    (hd : off.onOffset d = true) :
    off.applyN (off.applyN d (-1)) 1 = d := by
  have h := off.apply_succ d (-1) hd
  have h0 := off.apply_zero d hd
  have : (-1 : Int) + 1 = 0 := by norm_num
  rw [show (-1 : Int) + 1 = 0 from this] at h
  rw [← h, h0]

theorem Offset.applyNeg_lt (off : Offset) (d : Int)
    (hd : off.onOffset d = true) :
    off.applyN d (-1) < d := by
  have h := off.apply_mono (off.applyN d (-1))
  rw [off.applyNeg_inv d hd] at h
  exact h

/-- Error taxonomy of the module: the named failures of the spec, plus the
generic Python IndexError/TypeError that indexing an empty range or using a
range without an offset raises in DateRange.shift. -/
inductive RangeError where
  | invalidDate
  | insufficientParameters
  | missingOffset
  | missingPeriodCount
  | missingBoundary
  | dateNotFound
  | indexError
  | typeError
deriving DecidableEq, Repr

/-- Modelled from the spec: datetools.to_datetime parses a boundary input.
Boundary inputs of the embedding are already date values, so parsing is the
identity (None stays None). -/
def to_datetime (d : Option Int) : Option Int := d

/-- The state XDateRange.__init__ stores on success (lines 70-74): the
resolved offset and the snapped, derived boundaries.  After a successful
construction both boundaries are always concrete dates. -/
structure XDateRangeState where
  offset : Offset
  fromDate : Int
  toDate : Int
  nPeriods : Option Int

/-- Lines 56-57: snap fromDate forward by one offset step if it is supplied
and not on the offset's grid. -/
def snapFrom (off : Offset) : Option Int → Option Int
  | none => none
  | some f => if off.onOffset f then some f else some (off.applyN f 1)

/-- Lines 58-62: snap toDate backward by one offset step if supplied and
off-grid; if that makes it fall below the (already snapped) fromDate and no
period count was given, clear toDate and set the period count to 0.  The
comparison toDate < fromDate follows Python 2 semantics, where None compares
below every datetime, so a missing fromDate never triggers the collapse. -/
def snapTo (off : Offset) (fromDate2 : Option Int) (toDate1 : Option Int)
    (nPeriods0 : Option Int) : Option Int × Option Int :=
  match toDate1 with
  | none => (none, nPeriods0)
  | some t =>
    if off.onOffset t then (some t, nPeriods0)
    else
      if nPeriods0.isNone && (match fromDate2 with
          | some f => decide (off.applyN t (-1) < f)
          | none => false) then (none, some 0)
      else (some (off.applyN t (-1)), nPeriods0)

/-- Lines 64-74: derive whichever boundary is missing from the other boundary
and the period count; when the data needed for the derivation is itself
missing the Python code fails (InsufficientParametersError in the spec's
taxonomy). -/
def deriveBounds (off : Offset) (fromDate2 toDate2 : Option Int)
    (nPeriods1 : Option Int) : Except RangeError XDateRangeState :=
  match toDate2 with
  | none =>
    match fromDate2, nPeriods1 with
    | some f, some np =>
      Except.ok { offset := off, fromDate := f, toDate := off.applyN f (np - 1),
                  nPeriods := nPeriods1 }
    | _, _ => Except.error RangeError.insufficientParameters
  | some t =>
    match fromDate2 with
    | some f =>
      Except.ok { offset := off, fromDate := f, toDate := t, nPeriods := nPeriods1 }
    | none =>
      match nPeriods1 with
      | some np =>
        Except.ok { offset := off, fromDate := off.applyN t (-(np - 1)),
                    toDate := t, nPeriods := nPeriods1 }
      | none => Except.error RangeError.insufficientParameters

/-- XDateRange.__init__ (lines 43-74): resolve the offset from the named rule
if one is given, parse the boundaries, snap them onto the grid, and derive the
missing boundary. -/
def XDateRange.init (fromDate0 toDate0 : Option Int) (nPeriods0 : Option Int)
    (offset0 : Offset) (timeRule : Option Offset) :
    Except RangeError XDateRangeState :=
  let offset := timeRule.getD offset0
  let fromDate2 := snapFrom offset (to_datetime fromDate0)
  let snapped := snapTo offset fromDate2 (to_datetime toDate0) nPeriods0
  deriveBounds offset fromDate2 snapped.1 snapped.2

/-- The body of XDateRange.__iter__ (lines 76-83): yield the cursor, then
advance it by one offset step, while the cursor is at most toDate.  The
recursion is bounded by the fuel argument; iterLoop below instantiates the
fuel with a bound that the strict monotonicity of the offset step makes
sufficient, so the fuel never runs out while the loop condition holds. -/
def iterGo (off : Offset) (toDate : Int) : Nat → Int → List Int
  | 0, _ => []
  | fuel + 1, cur =>
    if cur ≤ toDate then cur :: iterGo off toDate fuel (off.applyN cur 1) else []

/-- The while loop of XDateRange.__iter__, started at cursor cur. -/
def iterLoop (off : Offset) (toDate cur : Int) : List Int :=
  iterGo off toDate (toDate + 1 - cur).toNat cur

/-- XDateRange.__iter__ (lines 76-83): start from fromDate, normalized to
midnight first when the offset requires it, and run the while loop. -/
def XDateRangeState.toList (s : XDateRangeState) : List Int :=
  iterLoop s.offset s.toDate
    (if s.offset.normalizeFirst then normalize_date s.fromDate else s.fromDate)

theorem iterGo_congr (off : Offset) (toDate : Int) :
    ∀ f1 f2 : Nat, ∀ cur : Int, (toDate + 1 - cur).toNat ≤ f1 →
      (toDate + 1 - cur).toNat ≤ f2 →
      iterGo off toDate f1 cur = iterGo off toDate f2 cur := by
  intro f1
  induction f1 with
  | zero =>
    intro f2 cur h1 h2
    have hc : ¬ cur ≤ toDate := by omega
    cases f2 with
    | zero => rfl
    | succ g => simp [iterGo, hc]
  | succ f ih =>
    intro f2 cur h1 h2
    cases f2 with
    | zero =>
      have hc : ¬ cur ≤ toDate := by omega
      simp [iterGo, hc]
    | succ g =>
      by_cases hc : cur ≤ toDate
      · have hm := off.apply_mono cur
        have hnext : (toDate + 1 - off.applyN cur 1).toNat ≤ f := by omega
        have hnext2 : (toDate + 1 - off.applyN cur 1).toNat ≤ g := by omega
        simp [iterGo, hc, ih g (off.applyN cur 1) hnext hnext2]
      · simp [iterGo, hc]

/-- The loop unfolding equation: iterLoop is exactly the while loop of
__iter__ (yield cur, advance by one offset step, while cur is at most
toDate). -/
theorem iterLoop_eq (off : Offset) (toDate cur : Int) :
    iterLoop off toDate cur =
      if cur ≤ toDate then cur :: iterLoop off toDate (off.applyN cur 1)
      else [] := by
  by_cases hc : cur ≤ toDate
  · have hpos : 0 < (toDate + 1 - cur).toNat := by omega
    obtain ⟨k, hk⟩ : ∃ k, (toDate + 1 - cur).toNat = k + 1 := by
      cases h : (toDate + 1 - cur).toNat with
      | zero => omega
      | succ k => exact ⟨k, rfl⟩
    have hm := off.apply_mono cur
    have hn1 : (toDate + 1 - off.applyN cur 1).toNat ≤ k := by omega
    have hn2 : (toDate + 1 - off.applyN cur 1).toNat ≤
        (toDate + 1 - off.applyN cur 1).toNat := le_refl _
    unfold iterLoop
    rw [hk]
    simp only [iterGo, hc, if_true]
    rw [iterGo_congr off toDate k ((toDate + 1 - off.applyN cur 1).toNat)
      (off.applyN cur 1) hn1 hn2]
  · have h0 : (toDate + 1 - cur).toNat = 0 := by omega
    unfold iterLoop
    rw [h0]
    simp [iterGo, hc]

/-- The fixed cache window start, datetime(1950, 1, 1) (line 88): 7305 days
before the epoch. -/
def CACHE_START : Int := -7305 * DAY

/-- The fixed cache window end, datetime(2030, 1, 1) (line 89): 21915 days
after the epoch. -/
def CACHE_END : Int := 21915 * DAY

/-- The DateRange value: the materialized element array, the offset tag the
class carries, and the parent back-reference (the canonical sequence a cached
slice was taken from).  A freshly viewed array has neither attribute set,
matching what __array_finalize__ produces for a plain ndarray source. -/
structure DateRange where
  elems : List Int
  offset : Option Offset
  parent : Option (List Int)

/-- The class-level DateRange._cache dictionary, keyed by offset identity. -/
abbrev Cache := List (Nat × DateRange)

def lookupCache : Cache → Nat → Option DateRange
  | [], _ => none
  | (k, v) :: rest, key => if k = key then some v else lookupCache rest key

/-- Resolve a Python slice bound against a sequence length: negative bounds
count from the end, and both directions clamp into the valid range. -/
def pyBound (len : Nat) (i : Int) : Nat :=
  if i < 0 then ((len : Int) + i).toNat else min i.toNat len

/-- Python list slicing xs[a:b] with unit step. -/
def pySlice (xs : List Int) (a b : Int) : List Int :=
  (xs.take (pyBound xs.length b)).drop (pyBound xs.length a)

/-- cachedRange.indexMap: the position of a date in the canonical sequence
(first occurrence; the canonical sequence is strictly increasing, so unique),
or None in place of the KeyError the Python lookup raises. -/
def indexMapFind : List Int → Int → Option Nat
  | [], _ => none
  | x :: xs, d => if x = d then some 0 else (indexMapFind xs d).map (fun i => i + 1)

/-- DateRange.fromIndex (lines 224-227): wrap a pre-built array directly; the
view of a plain array carries no offset and no parent. -/
def DateRange.fromIndex (arr : List Int) : DateRange :=
  { elems := arr, offset := none, parent := none }

/-- Lines 181-185: build the canonical sequence for an offset by running
XDateRange over the whole cache window, materializing it, and tagging the
offset on the wrapped index. -/
def buildCanonical (offset : Offset) : Except RangeError DateRange :=
  match XDateRange.init (some CACHE_START) (some CACHE_END) none offset none with
  | Except.ok st =>
    Except.ok { DateRange.fromIndex st.toList with offset := some offset }
  | Except.error e => Except.error e

/-- Lines 191-222 of getCachedRange: given the canonical sequence, compute the
requested slice.  Each branch mirrors the code: end-only requires a period
count, rolls end backward and slices [endLoc - periods, endLoc) with
endLoc = position + 1; start-only rolls start forward, locates it, then
requires a period count and slices [startLoc, startLoc + periods); with both,
start rolls forward and end backward and the slice is
[position(start), position(end) + 1).  The slice inherits the canonical
range's offset (DateRange.__getitem__ with a unit-step slice) and its parent
back-reference is set to the canonical sequence (line 220). -/
def sliceStep (offset : Offset) (cachedRange : DateRange)
    (start0 end0 : Option Int) (periods : Option Int) :
    Except RangeError DateRange :=
  match start0, end0 with
  | none, none => Except.error RangeError.missingBoundary
  | none, some e0 =>
    match periods with
    | none => Except.error RangeError.missingPeriodCount
    | some p =>
      match indexMapFind cachedRange.elems (offset.rollback e0) with
      | none => Except.error RangeError.dateNotFound
      | some pos =>
        Except.ok { elems := pySlice cachedRange.elems ((pos : Int) + 1 - p)
                      ((pos : Int) + 1),
                    offset := cachedRange.offset,
                    parent := some cachedRange.elems }
  | some s0, none =>
    match indexMapFind cachedRange.elems (offset.rollforward s0) with
    | none => Except.error RangeError.dateNotFound
    | some pos =>
      match periods with
      | none => Except.error RangeError.missingPeriodCount
      | some p =>
        Except.ok { elems := pySlice cachedRange.elems (pos : Int)
                      ((pos : Int) + p),
                    offset := cachedRange.offset,
                    parent := some cachedRange.elems }
  | some s0, some e0 =>
    match indexMapFind cachedRange.elems (offset.rollforward s0) with
    | none => Except.error RangeError.dateNotFound
    | some posS =>
      match indexMapFind cachedRange.elems (offset.rollback e0) with
      | none => Except.error RangeError.dateNotFound
      | some posE =>
        Except.ok { elems := pySlice cachedRange.elems ((posS : Int))
                      ((posE : Int) + 1),
                    offset := cachedRange.offset,
                    parent := some cachedRange.elems }

/-- DateRange.getCachedRange (lines 169-222): resolve the offset (a named
rule overrides a passed offset; no offset at all fails); look the offset up in
the class-level cache, building and inserting the canonical sequence on a
miss; then slice it.  The cache is threaded explicitly and, like the Python
class attribute, keeps any insertion even when the subsequent lookup of a
boundary fails. -/
def DateRange.getCachedRange (cache : Cache) (start0 end0 : Option Int)
    (periods : Option Int) (offset0 : Option Offset)
    (timeRule : Option Offset) : Except RangeError DateRange × Cache :=
  match (match timeRule with
         | some o => some o
         | none => offset0) with
  | none => (Except.error RangeError.missingOffset, cache)
  | some offset =>
    match lookupCache cache offset.oid with
    | some cachedRange => (sliceStep offset cachedRange start0 end0 periods, cache)
    | none =>
      match buildCanonical offset with
      | Except.ok cachedRange =>
        (sliceStep offset cachedRange start0 end0 periods,
         (offset.oid, cachedRange) :: cache)
      | Except.error e => (Except.error e, cache)

/-- DateRange.__new__ (lines 121-162).  With a pre-built index the escape
hatch returns it viewed as a DateRange.  Otherwise the boundary and period
aliases are resolved (the alias only when the primary is absent or, for the
period count, falsy), the boundaries parsed, and the cache window checked:
the cache path is taken only when both parsed boundaries lie strictly inside
(CACHE_START, CACHE_END) and the offset is anchored and not a Tick; every
other request runs XDateRange to exhaustion and tags the materialized array
with the offset. -/
def DateRange.new (cache : Cache) (fromDate0 toDate0 : Option Int)
    (periods0 : Option Int) (offset : Offset) (timeRule : Option Offset)
    (kwIndex : Option DateRange) (kwBegin kwEnd : Option Int)
    (kwNPeriods : Option Int) : Except RangeError DateRange × Cache :=
  match kwIndex with
  | some idx => (Except.ok idx, cache)
  | none =>
    let fromDate1 := match fromDate0 with
      | some f => some f
      | none => kwBegin
    let toDate1 := match toDate0 with
      | some t => some t
      | none => kwEnd
    let periods1 := match periods0 with
      | some p => if p = 0 then kwNPeriods else some p
      | none => kwNPeriods
    let fromDate2 := to_datetime fromDate1
    let toDate2 := to_datetime toDate1
    let fromInside := match fromDate2 with
      | some f => decide (CACHE_START < f)
      | none => false
    let toInside := match toDate2 with
      | some t => decide (t < CACHE_END)
      | none => false
    if fromInside && toInside && offset.isAnchored && !offset.isTick then
      DateRange.getCachedRange cache fromDate2 toDate2 periods1 (some offset)
        timeRule
    else
      match XDateRange.init fromDate2 toDate2 periods1 offset timeRule with
      | Except.ok st =>
        (Except.ok { elems := st.toList, offset := some offset, parent := none },
         cache)
      | Except.error e => (Except.error e, cache)

/-- A fixed-stride grid: the grid points are the multiples of s, one step of
the offset jumps by s, and an off-grid date rolls to the neighbouring
multiple.  This realizes offsets such as a plain multi-day stride. -/
def strideApply (s d k : Int) : Int :=
  if d % s = 0 then d + k * s
  else if 0 < k then s * (d / s + k)
  else if k < 0 then s * (d / s + 1 + k)
  else d

theorem strideApply_mono (s d : Int) (hs : 0 < s) : d < strideApply s d 1 := by
  unfold strideApply
  have h1 := Int.ediv_add_emod d s
  have h2 := Int.emod_nonneg d (ne_of_gt hs)
  have h3 := Int.emod_lt_of_pos d hs
  have h4 : s * (d / s + 1) = s * (d / s) + s := by ring
  by_cases h : d % s = 0
  · simp only [h, if_true]
    linarith
  · simp only [h, if_false]
    norm_num
    linarith

theorem strideApply_emod (s d k : Int) (hs : 0 < s) (hk : k ≠ 0) :
    strideApply s d k % s = 0 := by
  unfold strideApply
  by_cases h : d % s = 0
  · simp only [h, if_true]
    rw [Int.add_mul_emod_self, h]
  · simp only [h, if_false]
    by_cases hk1 : 0 < k
    · simp only [hk1, if_true]
      exact Int.mul_emod_right s (d / s + k)
    · have hk2 : k < 0 := by omega
      simp only [hk1, if_false, hk2, if_true]
      exact Int.mul_emod_right s (d / s + 1 + k)

theorem strideApply_on (s d k : Int) (hd : d % s = 0) :
    strideApply s d k = d + k * s := by
  unfold strideApply
  simp [hd]

def mkStride (oid : Nat) (s : Int) (hs : 0 < s) (anch tick : Bool) : Offset where
  oid := oid
  onOffset d := decide (d % s = 0)
  applyN := strideApply s
  isAnchored := anch
  isTick := tick
  normalizeFirst := false
  apply_mono d := strideApply_mono s d hs
  apply_onOffset d := by
    simp only [decide_eq_true_iff]
    exact strideApply_emod s d 1 hs (by norm_num)
  applyNeg_onOffset d := by
    simp only [decide_eq_true_iff]
    exact strideApply_emod s d (-1) hs (by norm_num)
  applyN_onOffset d k hd := by
    simp only [decide_eq_true_iff] at hd ⊢
    rw [strideApply_on s d k hd, Int.add_mul_emod_self, hd]
  apply_zero d hd := by
    simp only [decide_eq_true_iff] at hd
    rw [strideApply_on s d 0 hd]
    ring
  apply_succ d k hd := by
    simp only [decide_eq_true_iff] at hd
    have hk : (d + k * s) % s = 0 := by rw [Int.add_mul_emod_self, hd]
    rw [strideApply_on s d (k + 1) hd, strideApply_on s d k hd,
        strideApply_on s (d + k * s) 1 hk]
    ring
  apply_inv d hd := by
    simp only [decide_eq_true_iff] at hd
    have hk : (d + 1 * s) % s = 0 := by rw [Int.add_mul_emod_self, hd]
    rw [strideApply_on s d 1 hd, strideApply_on s (d + 1 * s) (-1) hk]
    ring
  norm_onOffset h := by cases h
  apply_norm h := by cases h

/-- Business-day arithmetic on day numbers.  Day 0 is the epoch Thursday, so
the weekday of day x is (x + 3) % 7 with 0 = Monday; business days are
weekdays 0 to 4.  bdayIdx maps a business day to its index in the enumeration
of all business days and bdayDay is its inverse. -/
def bdayIdx (x : Int) : Int := 5 * ((x + 3) / 7) + (x + 3) % 7

def bdayDay (i : Int) : Int := 7 * (i / 5) + i % 5 - 3

/-- Move k business days from day x: on a business day via the enumeration,
from a weekend forward to the coming Monday or backward to the past Friday
first. -/
def bdayAdd (x k : Int) : Int :=
  if (x + 3) % 7 < 5 then bdayDay (bdayIdx x + k)
  else if 0 < k then bdayDay (5 * ((x + 3) / 7) + 5 + (k - 1))
  else if k < 0 then bdayDay (5 * ((x + 3) / 7) + 4 + (k + 1))
  else x

/-- Adding k business days to a timestamp: move the day, keep the
time of day. -/
def bdayApply (d k : Int) : Int := DAY * bdayAdd (d / DAY) k + d % DAY

/-- BDay.onOffset: the timestamp's day is a weekday (any time of day). -/
def bdayOn (d : Int) : Bool := decide ((d / DAY + 3) % 7 < 5)

theorem bdayApply_mono (d : Int) : d < bdayApply d 1 := by
  unfold bdayApply bdayAdd bdayIdx bdayDay DAY
  split_ifs <;> omega

theorem bdayApply_onOffset (d k : Int) (hk : k ≠ 0) :
    bdayOn (bdayApply d k) = true := by
  unfold bdayOn bdayApply bdayAdd bdayIdx bdayDay DAY
  simp only [decide_eq_true_iff]
  split_ifs <;> omega

theorem bdayApply_zero (d : Int) (hd : bdayOn d = true) : bdayApply d 0 = d := by
  unfold bdayOn at hd
  simp only [decide_eq_true_iff] at hd
  unfold bdayApply bdayAdd bdayIdx bdayDay DAY at *
  split_ifs <;> omega

theorem bdayApply_succ (d k : Int) (hd : bdayOn d = true) :
    bdayApply d (k + 1) = bdayApply (bdayApply d k) 1 := by
  unfold bdayOn at hd
  simp only [decide_eq_true_iff] at hd
  unfold bdayApply bdayAdd bdayIdx bdayDay DAY at *
  split_ifs <;> omega

theorem bdayApply_inv (d : Int) (hd : bdayOn d = true) :
    bdayApply (bdayApply d 1) (-1) = d := by
  unfold bdayOn at hd
  simp only [decide_eq_true_iff] at hd
  unfold bdayApply bdayAdd bdayIdx bdayDay DAY at *
  split_ifs <;> omega

theorem bdayOn_normalize (d : Int) (hd : bdayOn d = true) :
    bdayOn (normalize_date d) = true := by
  unfold bdayOn normalize_date DAY at *
  simp only [decide_eq_true_iff] at *
  omega

theorem bdayApply_normalize (d k : Int) (hn : normalize_date d = d) :
    normalize_date (bdayApply d k) = bdayApply d k := by
  unfold normalize_date bdayApply DAY at *
  omega

/-- Modelled from the spec: a one-business-day offset (datetools.BDay).  The
normalize-first flag is a parameter so that both the plain and the
normalizing variant share the construction; BDay is anchored and is not a
fixed-duration Tick. -/
def mkBDay (oid : Nat) (nf : Bool) : Offset where
  oid := oid
  onOffset := bdayOn
  applyN := bdayApply
  isAnchored := true
  isTick := false
  normalizeFirst := nf
  apply_mono := bdayApply_mono
  apply_onOffset d := bdayApply_onOffset d 1 (by norm_num)
  applyNeg_onOffset d := bdayApply_onOffset d (-1) (by norm_num)
  applyN_onOffset d k hd := by
    by_cases hk : k = 0
    · rw [hk, bdayApply_zero d hd]
      exact hd
    · exact bdayApply_onOffset d k hk
  apply_zero := bdayApply_zero
  apply_succ := bdayApply_succ
  apply_inv := bdayApply_inv
  norm_onOffset _ := bdayOn_normalize
  apply_norm _ := bdayApply_normalize

/-- Modelled from the spec: datetools.bday, the module-level default offset
(one business day, no normalize-first). -/
def bday : Offset := mkBDay 1 false

/-- A business-day offset that normalizes the cursor to midnight before
iteration begins, exercising the normalize-first capability of the spec. -/
def bdayNorm : Offset := mkBDay 2 true

/-- A daily offset whose grid contains every timestamp and that requires
midnight normalization before iterating (a DateOffset of one day with
normalization). -/
def dailyNorm : Offset where
  oid := 3
  onOffset _ := true
  applyN d k := d + k * DAY
  isAnchored := false
  isTick := true
  normalizeFirst := true
  apply_mono d := by
    show d < d + 1 * DAY
    unfold DAY
    omega
  apply_onOffset d := rfl
  applyNeg_onOffset d := rfl
  applyN_onOffset d k hd := rfl
  apply_zero d hd := by ring
  apply_succ d k hd := by ring
  apply_inv d hd := by ring
  norm_onOffset _ d hd := rfl
  apply_norm _ d k hn := by
    show normalize_date (d + k * DAY) = d + k * DAY
    unfold normalize_date DAY at *
    omega

/-- DateRange.shift (lines 272-287).  For n greater than 0: take the element
one offset step past the last element and construct a fresh range of n
periods from it -- through the DateRange constructor, whose offset argument is
left at its default, datetools.bday -- then concatenate the slice r[n:] with
that tail; the result carries r's offset.  For n less than 0 the mirror image
at the head, with the fresh head ending one offset step before the first
element.  For n = 0 the very same range is returned.  Indexing r[-1] or r[0]
of an empty range raises IndexError, and a range without an offset raises
TypeError, before anything else happens. -/
def DateRange.shift (cache : Cache) (r : DateRange) (n : Int) :
    Except RangeError DateRange × Cache :=
  if 0 < n then
    match r.elems.getLast? with
    | none => (Except.error RangeError.indexError, cache)
    | some last =>
      match r.offset with
      | none => (Except.error RangeError.typeError, cache)
      | some off =>
        match DateRange.new cache (some (off.applyN last 1)) none (some n) bday
            none none none none none with
        | (Except.ok tail, cache2) =>
          (Except.ok { elems := pySlice r.elems n (r.elems.length : Int)
                         ++ tail.elems,
                       offset := r.offset, parent := none }, cache2)
        | (Except.error e, cache2) => (Except.error e, cache2)
  else if n < 0 then
    match r.elems.head? with
    | none => (Except.error RangeError.indexError, cache)
    | some first =>
      match r.offset with
      | none => (Except.error RangeError.typeError, cache)
      | some off =>
        match DateRange.new cache none (some (off.applyN first (-1))) (some (-n))
            bday none none none none none with
        | (Except.ok head1, cache2) =>
          (Except.ok { elems := head1.elems ++ pySlice r.elems 0 n,
                       offset := r.offset, parent := none }, cache2)
        | (Except.error e, cache2) => (Except.error e, cache2)
  else (Except.ok r, cache)

theorem iterGo_grid (off : Offset) (toDate : Int) :
    ∀ fuel : Nat, ∀ cur : Int, off.onOffset cur = true →
      ∀ e ∈ iterGo off toDate fuel cur, off.onOffset e = true := by
  intro fuel
  induction fuel with
  | zero => intro cur hc e he; simp [iterGo] at he
  | succ f ih =>
    intro cur hc e he
    by_cases h : cur ≤ toDate
    · simp only [iterGo, h, if_true, List.mem_cons] at he
      cases he with
      | inl h1 => rw [h1]; exact hc
      | inr h2 => exact ih (off.applyN cur 1) (off.apply_onOffset cur) e h2
    · simp [iterGo, h] at he

theorem iterGo_chain (off : Offset) (toDate : Int) :
    ∀ fuel : Nat, ∀ cur : Int,
      List.Chain' (fun a b => b = off.applyN a 1) (iterGo off toDate fuel cur) := by
  intro fuel
  induction fuel with
  | zero => intro cur; simp [iterGo]
  | succ f ih =>
    intro cur
    by_cases h : cur ≤ toDate
    · simp only [iterGo, h, if_true]
      refine List.chain'_cons'.mpr ⟨?_, ih (off.applyN cur 1)⟩
      intro y hy
      cases f with
      | zero => simp [iterGo] at hy
      | succ g =>
        by_cases h2 : off.applyN cur 1 ≤ toDate
        · simp only [iterGo, h2, if_true, List.head?_cons, Option.mem_def,
            Option.some.injEq] at hy
          omega
        · simp [iterGo, h2] at hy
    · simp [iterGo, h]

theorem iterGo_lb (off : Offset) (toDate : Int) :
    ∀ fuel : Nat, ∀ cur : Int, ∀ e ∈ iterGo off toDate fuel cur, cur ≤ e := by
  intro fuel
  induction fuel with
  | zero => intro cur e he; simp [iterGo] at he
  | succ f ih =>
    intro cur e he
    by_cases h : cur ≤ toDate
    · simp only [iterGo, h, if_true, List.mem_cons] at he
      cases he with
      | inl h1 => omega
      | inr h2 =>
        have h3 := ih (off.applyN cur 1) e h2
        have h4 := off.apply_mono cur
        omega
    · simp [iterGo, h] at he

theorem iterGo_sorted (off : Offset) (toDate : Int) :
    ∀ fuel : Nat, ∀ cur : Int,
      List.Pairwise (fun a b => a < b) (iterGo off toDate fuel cur) := by
  intro fuel
  induction fuel with
  | zero => intro cur; simp [iterGo]
  | succ f ih =>
    intro cur
    by_cases h : cur ≤ toDate
    · simp only [iterGo, h, if_true]
      refine List.pairwise_cons.mpr ⟨?_, ih (off.applyN cur 1)⟩
      intro e he
      have h3 := iterGo_lb off toDate f (off.applyN cur 1) e he
      have h4 := off.apply_mono cur
      omega
    · simp [iterGo, h]

theorem snapFrom_onOffset (off : Offset) (fd : Option Int) (f : Int)
    (h : snapFrom off fd = some f) : off.onOffset f = true := by
  cases fd with
  | none => simp [snapFrom] at h
  | some f0 =>
    simp only [snapFrom] at h
    by_cases h1 : off.onOffset f0
    · rw [if_pos h1] at h
      cases h
      exact h1
    · rw [if_neg h1] at h
      cases h
      exact off.apply_onOffset f0

theorem snapTo_onOffset (off : Offset) (fd2 td : Option Int) (np : Option Int)
    (t : Int) (h : (snapTo off fd2 td np).1 = some t) :
    off.onOffset t = true := by
  cases td with
  | none => simp [snapTo] at h
  | some t0 =>
    simp only [snapTo] at h
    by_cases h1 : off.onOffset t0
    · rw [if_pos h1] at h
      cases h
      exact h1
    · rw [if_neg h1] at h
      split at h
      · simp at h
      · cases h
        exact off.applyNeg_onOffset t0

theorem deriveBounds_offset (off : Offset) (fd td : Option Int)
    (np : Option Int) (st : XDateRangeState)
    (h : deriveBounds off fd td np = Except.ok st) : st.offset = off := by
  unfold deriveBounds at h
  cases td with
  | none =>
    cases fd with
    | none => simp at h
    | some f =>
      cases np with
      | none => simp at h
      | some p =>
        simp only [Except.ok.injEq] at h
        rw [← h]
  | some t =>
    cases fd with
    | some f =>
      simp only [Except.ok.injEq] at h
      rw [← h]
    | none =>
      cases np with
      | none => simp at h
      | some p =>
        simp only [Except.ok.injEq] at h
        rw [← h]

theorem deriveBounds_fromDate_onOffset (off : Offset) (fd td : Option Int)
    (np : Option Int) (st : XDateRangeState)
    (hfd : ∀ f, fd = some f → off.onOffset f = true)
    (htd : ∀ t, td = some t → off.onOffset t = true)
    (h : deriveBounds off fd td np = Except.ok st) :
    off.onOffset st.fromDate = true := by
  unfold deriveBounds at h
  cases td with
  | none =>
    cases fd with
    | none => simp at h
    | some f =>
      cases np with
      | none => simp at h
      | some p =>
        simp only [Except.ok.injEq] at h
        rw [← h]
        exact hfd f rfl
  | some t =>
    cases fd with
    | some f =>
      simp only [Except.ok.injEq] at h
      rw [← h]
      exact hfd f rfl
    | none =>
      cases np with
      | none => simp at h
      | some p =>
        simp only [Except.ok.injEq] at h
        rw [← h]
        exact off.applyN_onOffset t (-(p - 1)) (htd t rfl)

theorem init_offset (fd0 td0 : Option Int) (np0 : Option Int) (off0 : Offset)
    (tr : Option Offset) (st : XDateRangeState)
    (h : XDateRange.init fd0 td0 np0 off0 tr = Except.ok st) :
    st.offset = tr.getD off0 := by
  unfold XDateRange.init at h
  exact deriveBounds_offset _ _ _ _ _ h

theorem init_fromDate_onOffset (fd0 td0 : Option Int) (np0 : Option Int)
    (off0 : Offset) (tr : Option Offset) (st : XDateRangeState)
    (h : XDateRange.init fd0 td0 np0 off0 tr = Except.ok st) :
    st.offset.onOffset st.fromDate = true := by
  have hoff := init_offset fd0 td0 np0 off0 tr st h
  unfold XDateRange.init at h
  rw [hoff]
  exact deriveBounds_fromDate_onOffset (tr.getD off0) _ _ _ st
    (fun f hf => snapFrom_onOffset _ _ f hf)
    (fun t ht => snapTo_onOffset _ _ _ _ t ht) h

/-- A two-minute stride marked as a fixed-duration Tick, so that DateRange
construction never takes the cache path with it. -/
def offTick : Offset := mkStride 4 2 (by norm_num) true true

/-- A two-calendar-day stride offset (anchored, not a tick). -/
def off2d : Offset := mkStride 5 (2 * DAY) (by unfold DAY; norm_num) true false

theorem deriveBounds_err_td_np (off : Offset) (fd : Option Int) :
    deriveBounds off fd none none = Except.error RangeError.insufficientParameters := by
  cases fd <;> rfl

theorem deriveBounds_err_fd_td (off : Offset) (np : Option Int) :
    deriveBounds off none none np = Except.error RangeError.insufficientParameters := by
  cases np <;> rfl

theorem deriveBounds_err_fd_np (off : Offset) (t : Int) :
    deriveBounds off none (some t) none =
      Except.error RangeError.insufficientParameters := rfl

/-- C4: whenever fewer than two of the three inputs fromDate, toDate,
periodCount are usable (at least two of them are absent), XDateRange
construction fails with InsufficientParametersError and no generator state is
produced. -/
theorem claim4_insufficient_parameters (fromDate0 toDate0 : Option Int)
    (nPeriods0 : Option Int) (offset0 : Offset) (timeRule : Option Offset)
    (h : (fromDate0 = none ∧ toDate0 = none) ∨
      (fromDate0 = none ∧ nPeriods0 = none) ∨
      (toDate0 = none ∧ nPeriods0 = none)) :
    XDateRange.init fromDate0 toDate0 nPeriods0 offset0 timeRule =
      Except.error RangeError.insufficientParameters := by
  unfold XDateRange.init to_datetime
  rcases h with ⟨h1, h2⟩ | ⟨h1, h2⟩ | ⟨h1, h2⟩
  · subst h1; subst h2
    simp only [snapFrom, snapTo]
    exact deriveBounds_err_fd_td _ nPeriods0
  · subst h1; subst h2
    cases toDate0 with
    | none =>
      simp only [snapFrom, snapTo]
      exact deriveBounds_err_fd_td _ none
    | some t =>
      simp only [snapFrom, snapTo, Option.isNone_none, Bool.true_and]
      by_cases ht : (timeRule.getD offset0).onOffset t
      · rw [if_pos ht]
        exact deriveBounds_err_fd_np _ t
      · rw [if_neg ht]
        exact deriveBounds_err_fd_np _ _
  · subst h1; subst h2
    simp only [snapTo]
    exact deriveBounds_err_td_np _ _

theorem claim4_witness :
    ((some (0:Int) = none ∧ (none : Option Int) = none) ∨
      (some (0:Int) = none ∧ (none : Option Int) = none) ∨
      ((none : Option Int) = none ∧ (none : Option Int) = none)) ∧
    XDateRange.init (some 0) none none offTick none =
      Except.error RangeError.insufficientParameters :=
  ⟨Or.inr (Or.inr ⟨rfl, rfl⟩),
   claim4_insufficient_parameters (some 0) none none offTick none
     (Or.inr (Or.inr ⟨rfl, rfl⟩))⟩

/-- C5 counterexample: with both supplied boundaries already on the grid
(fromDate 4, toDate 0 for the 2-minute stride) and no period count, the
stored period count stays absent instead of becoming 0, so the claimed
collapse does not happen in the on-grid case. -/
theorem claim5_counterexample :
    ¬ (∀ st, XDateRange.init (some 4) (some 0) none offTick none =
        Except.ok st → st.nPeriods = some 0) := by
  intro hall
  have h := hall { offset := offTick, fromDate := 4, toDate := 0,
                   nPeriods := none } rfl
  simp at h

/-- C5 (amended): the collapse to periodCount = 0 (with toDate cleared and
then re-derived as one step before fromDate) happens exactly when the
supplied toDate was off-grid and its backward snap fell strictly below
fromDate; when both supplied boundaries are on-grid with toDate < fromDate
and no period count, the stored fields are unchanged.  In both situations the
iterated sequence is empty iff the stored toDate is less than the starting
cursor, so it has zero length whenever the offset does not normalize the
cursor to midnight first, and also whenever fromDate already is a
midnight. -/
theorem claim5_amended (off : Offset) (f : Int) (hf : off.onOffset f = true) :
    (∀ t, off.onOffset t = false → off.applyN t (-1) < f →
      XDateRange.init (some f) (some t) none off none =
        Except.ok { offset := off, fromDate := f, toDate := off.applyN f (-1),
                    nPeriods := some 0 } ∧
      (({ offset := off, fromDate := f, toDate := off.applyN f (-1),
          nPeriods := some 0 } : XDateRangeState).toList = [] ↔
        off.applyN f (-1) <
          (if off.normalizeFirst then normalize_date f else f)) ∧
      (off.normalizeFirst = false →
        ({ offset := off, fromDate := f, toDate := off.applyN f (-1),
           nPeriods := some 0 } : XDateRangeState).toList = []) ∧
      (normalize_date f = f →
        ({ offset := off, fromDate := f, toDate := off.applyN f (-1),
           nPeriods := some 0 } : XDateRangeState).toList = [])) ∧
    (∀ t, off.onOffset t = true → t < f →
      XDateRange.init (some f) (some t) none off none =
        Except.ok { offset := off, fromDate := f, toDate := t,
                    nPeriods := none } ∧
      (({ offset := off, fromDate := f, toDate := t,
          nPeriods := none } : XDateRangeState).toList = [] ↔
        t < (if off.normalizeFirst then normalize_date f else f)) ∧
      (off.normalizeFirst = false →
        ({ offset := off, fromDate := f, toDate := t,
           nPeriods := none } : XDateRangeState).toList = []) ∧
      (normalize_date f = f →
        ({ offset := off, fromDate := f, toDate := t,
           nPeriods := none } : XDateRangeState).toList = [])) := by
  have hempty : ∀ td : Int, ∀ np : Option Int,
      (({ offset := off, fromDate := f, toDate := td, nPeriods := np } :
          XDateRangeState).toList = [] ↔
        td < (if off.normalizeFirst then normalize_date f else f)) := by
    intro td np
    have ht : ({ offset := off, fromDate := f, toDate := td, nPeriods := np } :
        XDateRangeState).toList = iterLoop off td
        (if off.normalizeFirst then normalize_date f else f) := rfl
    rw [ht, iterLoop_eq]
    by_cases hc : (if off.normalizeFirst then normalize_date f else f) ≤ td
    · simp only [hc, if_true]
      constructor
      · intro hx
        simp at hx
      · intro hx
        omega
    · simp only [hc, if_false]
      constructor
      · intro _
        omega
      · intro _
        trivial
  have hcfalse : off.normalizeFirst = false →
      (if off.normalizeFirst then normalize_date f else f) = f := by
    intro h
    rw [h]
    simp
  have hcnorm : normalize_date f = f →
      (if off.normalizeFirst then normalize_date f else f) = f := by
    intro h
    by_cases hnf : off.normalizeFirst
    · rw [if_pos hnf, h]
    · rw [if_neg hnf]
  constructor
  · intro t ht hlt
    have hdec : decide (off.applyN t (-1) < f) = true := decide_eq_true hlt
    have hlo : off.applyN f (-1) < f := off.applyNeg_lt f hf
    refine ⟨?_, hempty (off.applyN f (-1)) (some 0), ?_, ?_⟩
    · unfold XDateRange.init to_datetime
      simp only [Option.getD_none, snapFrom, snapTo, hf, if_pos, ht,
        Bool.false_eq_true, if_false, Option.isNone_none, Bool.true_and,
        hdec, if_true, deriveBounds]
      norm_num
    · intro hnf
      exact (hempty (off.applyN f (-1)) (some 0)).mpr (by rw [hcfalse hnf]; exact hlo)
    · intro hmid
      exact (hempty (off.applyN f (-1)) (some 0)).mpr (by rw [hcnorm hmid]; exact hlo)
  · intro t ht hlt
    refine ⟨?_, hempty t none, ?_, ?_⟩
    · unfold XDateRange.init to_datetime
      simp only [Option.getD_none, snapFrom, snapTo, hf, ht, if_pos,
        deriveBounds]
    · intro hnf
      exact (hempty t none).mpr (by rw [hcfalse hnf]; exact hlt)
    · intro hmid
      exact (hempty t none).mpr (by rw [hcnorm hmid]; exact hlt)

theorem claim5_witness :
    XDateRange.init (some 4) (some 3) none offTick none =
      Except.ok { offset := offTick, fromDate := 4,
                  toDate := offTick.applyN 4 (-1), nPeriods := some 0 } ∧
    ({ offset := offTick, fromDate := 4, toDate := offTick.applyN 4 (-1),
       nPeriods := some 0 } : XDateRangeState).toList = [] ∧
    XDateRange.init (some 4) (some 0) none offTick none =
      Except.ok { offset := offTick, fromDate := 4, toDate := 0,
                  nPeriods := none } ∧
    ({ offset := offTick, fromDate := 4, toDate := 0,
       nPeriods := none } : XDateRangeState).toList = [] := by
  have h := claim5_amended offTick 4 (by decide)
  have ha := h.1 3 (by decide) (by decide)
  have hb := h.2 0 (by decide) (by decide)
  exact ⟨ha.1, ha.2.2.1 rfl, hb.1, hb.2.2.1 rfl⟩

/-- C6 counterexample: for a daily offset that normalizes the cursor to
midnight first, a generator with fromDate 600 (00:10) and toDate 300 (00:05)
has toDate < fromDate yet yields the midnight 0, so the produced sequence is
not empty and the claimed equivalence fails. -/
theorem claim6_counterexample :
    ¬ (∀ st, XDateRange.init (some 600) (some 300) none dailyNorm none =
        Except.ok st → (st.toList = [] ↔ st.toDate < st.fromDate)) := by
  intro hall
  have h := hall { offset := dailyNorm, fromDate := 600, toDate := 300,
                   nPeriods := none } rfl
  have h2 : ({ offset := dailyNorm, fromDate := 600, toDate := 300,
               nPeriods := none } : XDateRangeState).toList = [0] := rfl
  have h3 := h.mpr (by norm_num)
  rw [h2] at h3
  simp at h3

/-- C6 (amended): iteration starts from fromDate, normalized to midnight
first when the offset requires it, yields the cursor and then advances it by
one offset step while the cursor is at most toDate; the sequence is empty iff
toDate is less than the starting cursor.  For offsets without
normalize-first this is equivalent to toDate < fromDate; with normalization
the comparison is against the normalized cursor. -/
theorem claim6_amended (fd0 td0 : Option Int) (np0 : Option Int)
    (off0 : Offset) (tr : Option Offset) (st : XDateRangeState) (cur0 : Int)
    (h : XDateRange.init fd0 td0 np0 off0 tr = Except.ok st)
    (hcur : cur0 = if st.offset.normalizeFirst then normalize_date st.fromDate
      else st.fromDate) :
    st.toList = (if cur0 ≤ st.toDate then
        cur0 :: iterLoop st.offset st.toDate (st.offset.applyN cur0 1)
      else []) ∧
    (st.toList = [] ↔ st.toDate < cur0) ∧
    (st.offset.normalizeFirst = false → (st.toList = [] ↔ st.toDate < st.fromDate)) := by
  have ht : st.toList = iterLoop st.offset st.toDate cur0 := by
    rw [hcur]
    rfl
  refine ⟨?_, ?_, ?_⟩
  · rw [ht, iterLoop_eq]
  · rw [ht, iterLoop_eq]
    by_cases hc : cur0 ≤ st.toDate
    · simp only [hc, if_true]
      constructor
      · intro hx
        simp at hx
      · intro hx
        omega
    · simp only [hc, if_false]
      constructor
      · intro _
        omega
      · intro _
        trivial
  · intro hnf
    have hcur2 : cur0 = st.fromDate := by
      rw [hcur, hnf]
      simp
    rw [ht, hcur2, iterLoop_eq]
    by_cases hc : st.fromDate ≤ st.toDate
    · simp only [hc, if_true]
      constructor
      · intro hx
        simp at hx
      · intro hx
        omega
    · simp only [hc, if_false]
      constructor
      · intro _
        omega
      · intro _
        trivial

theorem claim6_witness :
    ({ offset := dailyNorm, fromDate := 600, toDate := 300,
       nPeriods := none } : XDateRangeState).toList = [] ↔ (300:Int) < 0 := by
  have h := claim6_amended (some 600) (some 300) none dailyNorm none
    { offset := dailyNorm, fromDate := 600, toDate := 300, nPeriods := none }
    0 rfl (by decide)
  exact h.2.1

/-- C10: for a generator constructed with all three of fromDate, toDate and
periodCount, the iterated sequence depends only on the offset and the two
snapped boundaries -- the stored period count is never consulted -- so the
number of produced elements can differ from the supplied period count (here 6
elements against a stored period count of 99). -/
theorem claim10_periods_ignored :
    (∀ s1 s2 : XDateRangeState, s1.offset = s2.offset →
      s1.fromDate = s2.fromDate → s1.toDate = s2.toDate →
      s1.toList = s2.toList) ∧
    (XDateRange.init (some 0) (some 10) (some 99) offTick none).map
        (fun st => (st.nPeriods, st.toList.length)) =
      Except.ok (some 99, 6) := by
  constructor
  · intro s1 s2 h1 h2 h3
    unfold XDateRangeState.toList
    rw [h1, h2, h3]
  · rfl

theorem claim10_witness :
    ({ offset := offTick, fromDate := 0, toDate := 10, nPeriods := some 99 } :
        XDateRangeState).toList =
      ({ offset := offTick, fromDate := 0, toDate := 10, nPeriods := none } :
        XDateRangeState).toList :=
  claim10_periods_ignored.1 _ _ rfl rfl rfl

theorem deriveBounds_fromDate_eq (off : Offset) (f2 : Int) (td : Option Int)
    (np : Option Int) (st : XDateRangeState)
    (h : deriveBounds off (some f2) td np = Except.ok st) :
    st.fromDate = f2 := by
  unfold deriveBounds at h
  cases td with
  | none =>
    cases np with
    | none => simp at h
    | some p =>
      simp only [Except.ok.injEq] at h
      rw [← h]
  | some t =>
    simp only [Except.ok.injEq] at h
    rw [← h]

theorem deriveBounds_toDate_eq (off : Offset) (f2 t2 : Int)
    (np : Option Int) (st : XDateRangeState)
    (h : deriveBounds off (some f2) (some t2) np = Except.ok st) :
    st.toDate = t2 := by
  unfold deriveBounds at h
  simp only [Except.ok.injEq] at h
  rw [← h]

/-- C9 (amended): when the supplied fromDate is off-grid it is snapped
forward by one offset step, which is exactly forward(fromDate) and strictly
after the supplied fromDate; the first generated element equals
forward(fromDate) for offsets without normalize-first, and its midnight
normalization otherwise.  An off-grid toDate is snapped backward to the
previous grid point whenever the empty-collapse branch does not trigger. -/
theorem claim9_amended (off : Offset) (f : Int) (td0 : Option Int)
    (np0 : Option Int) (st : XDateRangeState)
    (hoff : off.onOffset f = false)
    (h : XDateRange.init (some f) td0 np0 off none = Except.ok st) :
    st.fromDate = off.applyN f 1 ∧
    st.fromDate = off.rollforward f ∧
    f < st.fromDate ∧
    (off.normalizeFirst = false → st.toList ≠ [] →
      st.toList.head? = some (off.rollforward f)) ∧
    (off.normalizeFirst = true → st.toList ≠ [] →
      st.toList.head? = some (normalize_date (off.rollforward f))) ∧
    (∀ t, td0 = some t → off.onOffset t = false →
      (np0 ≠ none ∨ ¬ off.applyN t (-1) < off.applyN f 1) →
      st.toDate = off.rollback t) := by
  have hroll : off.rollforward f = off.applyN f 1 := by
    unfold Offset.rollforward
    rw [hoff]
    simp
  have hsnap : snapFrom off (some f) = some (off.applyN f 1) := by
    simp [snapFrom, hoff]
  unfold XDateRange.init to_datetime at h
  simp only [Option.getD_none, hsnap] at h
  have hfrom : st.fromDate = off.applyN f 1 :=
    deriveBounds_fromDate_eq off _ _ _ st h
  have hlt : f < off.applyN f 1 := off.apply_mono f
  have hhead : ∀ nf : Bool, off.normalizeFirst = nf → st.toList ≠ [] →
      st.toList.head? = some (if nf then normalize_date st.fromDate
        else st.fromDate) := by
    intro nf hnf hne
    have ht : st.toList = iterLoop st.offset st.toDate
        (if st.offset.normalizeFirst then normalize_date st.fromDate
         else st.fromDate) := rfl
    have hoffst : st.offset = off := deriveBounds_offset _ _ _ _ _ h
    rw [ht, iterLoop_eq] at hne ⊢
    by_cases hc : (if st.offset.normalizeFirst then normalize_date st.fromDate
        else st.fromDate) ≤ st.toDate
    · rw [if_pos hc]
      rw [List.head?_cons]
      rw [hoffst, hnf]
    · rw [if_neg hc] at hne
      exact absurd rfl hne
  refine ⟨hfrom, by rw [hroll, hfrom], by rw [hfrom]; exact hlt, ?_, ?_, ?_⟩
  · intro hnf hne
    have h2 := hhead false hnf hne
    rw [if_neg (by simp)] at h2
    rw [h2, hfrom, hroll]
  · intro hnf hne
    have h2 := hhead true hnf hne
    rw [if_pos rfl] at h2
    rw [h2, hfrom, hroll]
  · intro t htd ht hcond
    subst htd
    have hback : off.rollback t = off.applyN t (-1) := by
      unfold Offset.rollback
      rw [ht]
      simp
    rw [hback]
    simp only [snapTo, ht, Bool.false_eq_true, if_false] at h
    have hcond2 : (np0.isNone && decide (off.applyN t (-1) < off.applyN f 1))
        = false := by
      cases hcond with
      | inl h1 =>
        cases np0 with
        | none => exact absurd rfl h1
        | some p => rfl
      | inr h2 =>
        rw [decide_eq_false h2]
        simp
    rw [hcond2] at h
    simp only [Bool.false_eq_true, if_false] at h
    exact deriveBounds_toDate_eq off _ _ _ st h

/-- C9 counterexample: for a normalize-first business-day offset and the
off-grid fromDate Saturday 2021-01-02 10:00, the first generated element is
the Monday midnight 2021-01-04 00:00, not forward(fromDate), which keeps the
10:00 time of day. -/
theorem claim9_counterexample :
    ¬ (∀ st, XDateRange.init (some 26826360) (some 26830080) none bdayNorm
        none = Except.ok st → st.toList ≠ [] →
        st.toList.head? = some (bdayNorm.rollforward 26826360)) := by
  intro hall
  have h := hall { offset := bdayNorm, fromDate := 26829240,
                   toDate := 26830080, nPeriods := none } rfl (by decide)
  exact absurd h (by decide)

theorem claim9_witness :
    ({ offset := bday, fromDate := 26828640, toDate := 26830080,
       nPeriods := none } : XDateRangeState).fromDate =
      bday.rollforward 26825760 ∧
    (26825760 : Int) <
      ({ offset := bday, fromDate := 26828640, toDate := 26830080,
         nPeriods := none } : XDateRangeState).fromDate := by
  have h := claim9_amended bday 26825760 (some 26830080) none
    { offset := bday, fromDate := 26828640, toDate := 26830080,
      nPeriods := none } (by decide) rfl
  exact ⟨h.2.1, h.2.2.1⟩

/-- C7: for every successfully constructed generator, every produced element
lies on the offset's grid, adjacent elements a, b satisfy b = add(a, 1) under
that offset, and the elements are strictly increasing; every contiguous slice
of the produced sequence (the materialized ranges are such slices) inherits
all three invariants. -/
theorem claim7_grid_invariants (fd0 td0 : Option Int) (np0 : Option Int)
    (off0 : Offset) (tr : Option Offset) (st : XDateRangeState)
    (h : XDateRange.init fd0 td0 np0 off0 tr = Except.ok st) :
    (∀ e ∈ st.toList, st.offset.onOffset e = true) ∧
    List.Chain' (fun a b => b = st.offset.applyN a 1) st.toList ∧
    List.Pairwise (fun a b => a < b) st.toList ∧
    (∀ a b : Int,
      (∀ e ∈ pySlice st.toList a b, st.offset.onOffset e = true) ∧
      List.Chain' (fun a2 b2 => b2 = st.offset.applyN a2 1)
        (pySlice st.toList a b) ∧
      List.Pairwise (fun a2 b2 => a2 < b2) (pySlice st.toList a b)) := by
  have hfrom := init_fromDate_onOffset fd0 td0 np0 off0 tr st h
  have hcur : st.offset.onOffset
      (if st.offset.normalizeFirst then normalize_date st.fromDate
       else st.fromDate) = true := by
    by_cases hnf : st.offset.normalizeFirst
    · rw [if_pos hnf]
      exact st.offset.norm_onOffset hnf st.fromDate hfrom
    · rw [if_neg hnf]
      exact hfrom
  have ht : st.toList = iterGo st.offset st.toDate
      (st.toDate + 1 - (if st.offset.normalizeFirst then
        normalize_date st.fromDate else st.fromDate)).toNat
      (if st.offset.normalizeFirst then normalize_date st.fromDate
       else st.fromDate) := rfl
  have hgrid : ∀ e ∈ st.toList, st.offset.onOffset e = true := by
    rw [ht]
    exact iterGo_grid st.offset st.toDate _ _ hcur
  have hchain : List.Chain' (fun a b => b = st.offset.applyN a 1) st.toList := by
    rw [ht]
    exact iterGo_chain st.offset st.toDate _ _
  have hsorted : List.Pairwise (fun a b => a < b) st.toList := by
    rw [ht]
    exact iterGo_sorted st.offset st.toDate _ _
  refine ⟨hgrid, hchain, hsorted, ?_⟩
  intro a b
  have hsub : (pySlice st.toList a b).Sublist st.toList := by
    unfold pySlice
    exact ((st.toList.take (pyBound st.toList.length b)).drop_sublist
      (pyBound st.toList.length a)).trans
      (st.toList.take_sublist (pyBound st.toList.length b))
  refine ⟨?_, ?_, ?_⟩
  · intro e he
    exact hgrid e (hsub.subset he)
  · unfold pySlice
    exact (hchain.take (pyBound st.toList.length b)).drop
      (pyBound st.toList.length a)
  · exact hsorted.sublist hsub

def stW7 : XDateRangeState :=
  { offset := offTick, fromDate := 0, toDate := 10, nPeriods := none }

theorem claim7_witness :
    (∀ e ∈ stW7.toList, offTick.onOffset e = true) ∧
    List.Chain' (fun a b => b = offTick.applyN a 1) stW7.toList ∧
    List.Pairwise (fun a b => a < b) stW7.toList := by
  have h := claim7_grid_invariants (some 0) (some 10) none offTick none
    stW7 rfl
  exact ⟨h.1, h.2.1, h.2.2.1⟩

/-- C2: for every cache lookup whose offset resolves, with cr the canonical
sequence for that offset (either found in the cache, leaving it unchanged, or
freshly built and inserted): the end-only request slices
[endLoc - periods, endLoc) where endLoc is the position of the backward-rolled
end plus one; the start-only request slices [startLoc, startLoc + periods) at
the position of the forward-rolled start; with both boundaries the slice is
[position(rollforward start), position(rollback end) + 1); and in every case
the returned slice's parent back-reference is the canonical sequence. -/
theorem claim2_getCachedRange_slicing (cache cache2 : Cache) (off : Offset)
    (cr : DateRange)
    (hres : lookupCache cache off.oid = some cr ∧ cache2 = cache ∨
      lookupCache cache off.oid = none ∧ buildCanonical off = Except.ok cr ∧
      cache2 = (off.oid, cr) :: cache) :
    (∀ e p : Int, ∀ i : Nat,
      indexMapFind cr.elems (off.rollback e) = some i →
      DateRange.getCachedRange cache none (some e) (some p) (some off) none =
        (Except.ok { elems := pySlice cr.elems ((i : Int) + 1 - p)
                       ((i : Int) + 1),
                     offset := cr.offset, parent := some cr.elems }, cache2)) ∧
    (∀ s p : Int, ∀ i : Nat,
      indexMapFind cr.elems (off.rollforward s) = some i →
      DateRange.getCachedRange cache (some s) none (some p) (some off) none =
        (Except.ok { elems := pySlice cr.elems ((i : Int)) ((i : Int) + p),
                     offset := cr.offset, parent := some cr.elems }, cache2)) ∧
    (∀ s e : Int, ∀ p0 : Option Int, ∀ i j : Nat,
      indexMapFind cr.elems (off.rollforward s) = some i →
      indexMapFind cr.elems (off.rollback e) = some j →
      DateRange.getCachedRange cache (some s) (some e) p0 (some off) none =
        (Except.ok { elems := pySlice cr.elems ((i : Int)) ((j : Int) + 1),
                     offset := cr.offset, parent := some cr.elems }, cache2)) := by
  rcases hres with ⟨hl, hc2⟩ | ⟨hl, hb, hc2⟩ <;> subst hc2
  · refine ⟨?_, ?_, ?_⟩
    · intro e p i hfind
      simp only [DateRange.getCachedRange, hl, sliceStep, hfind]
    · intro s p i hfind
      simp only [DateRange.getCachedRange, hl, sliceStep, hfind]
    · intro s e p0 i j hfindS hfindE
      simp only [DateRange.getCachedRange, hl, sliceStep, hfindS, hfindE]
  · refine ⟨?_, ?_, ?_⟩
    · intro e p i hfind
      simp only [DateRange.getCachedRange, hl, hb, sliceStep, hfind]
    · intro s p i hfind
      simp only [DateRange.getCachedRange, hl, hb, sliceStep, hfind]
    · intro s e p0 i j hfindS hfindE
      simp only [DateRange.getCachedRange, hl, hb, sliceStep, hfindS, hfindE]

def crW : DateRange :=
  { elems := [0, 2, 4, 6], offset := some offTick, parent := none }

theorem claim2_witness :
    DateRange.getCachedRange [(4, crW)] none (some 5) (some 2) (some offTick)
        none =
      (Except.ok { elems := pySlice crW.elems ((2 : Int) + 1 - 2)
                     ((2 : Int) + 1),
                   offset := crW.offset, parent := some crW.elems },
       [(4, crW)]) ∧
    DateRange.getCachedRange [(4, crW)] (some 1) none (some 2) (some offTick)
        none =
      (Except.ok { elems := pySlice crW.elems ((1 : Int)) ((1 : Int) + 2),
                   offset := crW.offset, parent := some crW.elems },
       [(4, crW)]) ∧
    DateRange.getCachedRange [(4, crW)] (some 1) (some 5) none (some offTick)
        none =
      (Except.ok { elems := pySlice crW.elems ((1 : Int)) ((2 : Int) + 1),
                   offset := crW.offset, parent := some crW.elems },
       [(4, crW)]) := by
  have h := claim2_getCachedRange_slicing [(4, crW)] [(4, crW)] offTick crW
    (Or.inl ⟨rfl, rfl⟩)
  exact ⟨h.1 5 2 2 rfl, h.2.1 1 2 1 rfl, h.2.2 1 5 none 1 2 rfl rfl⟩

theorem new_eq_cases (cache : Cache) (fromDate0 toDate0 : Option Int)
    (periods0 : Option Int) (offset : Offset) (timeRule : Option Offset)
    (kwBegin kwEnd : Option Int) (kwNPeriods : Option Int) :
    DateRange.new cache fromDate0 toDate0 periods0 offset timeRule none
        kwBegin kwEnd kwNPeriods =
      (if ((match (match fromDate0 with | some x => some x | none => kwBegin) with
            | some fd => decide (CACHE_START < fd)
            | none => false) &&
           (match (match toDate0 with | some x => some x | none => kwEnd) with
            | some td => decide (td < CACHE_END)
            | none => false) &&
           offset.isAnchored && !offset.isTick)
       then DateRange.getCachedRange cache
         (match fromDate0 with | some x => some x | none => kwBegin)
         (match toDate0 with | some x => some x | none => kwEnd)
         (match periods0 with
          | some x => if x = 0 then kwNPeriods else some x
          | none => kwNPeriods)
         (some offset) timeRule
       else match XDateRange.init
         (match fromDate0 with | some x => some x | none => kwBegin)
         (match toDate0 with | some x => some x | none => kwEnd)
         (match periods0 with
          | some x => if x = 0 then kwNPeriods else some x
          | none => kwNPeriods) offset timeRule with
        | Except.ok st =>
          (Except.ok { elems := st.toList, offset := some offset,
                       parent := none }, cache)
        | Except.error e => (Except.error e, cache)) := rfl

theorem cond_iff (f t : Option Int) (offset : Offset) :
    ((match f with
      | some fd => decide (CACHE_START < fd)
      | none => false) &&
     (match t with
      | some td => decide (td < CACHE_END)
      | none => false) &&
     offset.isAnchored && !offset.isTick) = true ↔
    ((∃ fd, f = some fd ∧ CACHE_START < fd) ∧
     (∃ td, t = some td ∧ td < CACHE_END) ∧
     offset.isAnchored = true ∧ offset.isTick = false) := by
  cases f with
  | none => simp
  | some fd =>
    cases t with
    | none => simp
    | some td =>
      simp only [Bool.and_eq_true, decide_eq_true_eq, Bool.not_eq_true',
        Option.some.injEq]
      constructor
      · rintro ⟨⟨⟨h1, h2⟩, h3⟩, h4⟩
        exact ⟨⟨fd, rfl, h1⟩, ⟨td, rfl, h2⟩, h3, h4⟩
      · rintro ⟨⟨fd2, hfd2, h1⟩, ⟨td2, htd2, h2⟩, h3, h4⟩
        subst hfd2
        subst htd2
        exact ⟨⟨⟨h1, h2⟩, h3⟩, h4⟩

/-- C3: for a DateRange construction that does not use the pre-built index
escape hatch, the cache lookup is taken exactly when both resolved, parsed
boundaries are present and lie strictly inside (CACHE_START, CACHE_END) and
the offset is anchored and not a fixed-duration Tick; in every other case the
lazy generator is run to exhaustion and its output is materialized into an
array tagged with the offset. -/
theorem claim3_cache_decision (cache : Cache) (fromDate0 toDate0 : Option Int)
    (periods0 : Option Int) (offset : Offset) (timeRule : Option Offset)
    (kwBegin kwEnd : Option Int) (kwNPeriods : Option Int)
    (f t : Option Int) (p : Option Int)
    (hf : f = match fromDate0 with | some x => some x | none => kwBegin)
    (ht : t = match toDate0 with | some x => some x | none => kwEnd)
    (hp : p = match periods0 with
      | some x => if x = 0 then kwNPeriods else some x
      | none => kwNPeriods) :
    ((∃ fd, f = some fd ∧ CACHE_START < fd) ∧
        (∃ td, t = some td ∧ td < CACHE_END) ∧
        offset.isAnchored = true ∧ offset.isTick = false →
      DateRange.new cache fromDate0 toDate0 periods0 offset timeRule none
          kwBegin kwEnd kwNPeriods =
        DateRange.getCachedRange cache f t p (some offset) timeRule) ∧
    (¬ ((∃ fd, f = some fd ∧ CACHE_START < fd) ∧
        (∃ td, t = some td ∧ td < CACHE_END) ∧
        offset.isAnchored = true ∧ offset.isTick = false) →
      DateRange.new cache fromDate0 toDate0 periods0 offset timeRule none
          kwBegin kwEnd kwNPeriods =
        (match XDateRange.init f t p offset timeRule with
         | Except.ok st =>
           (Except.ok { elems := st.toList, offset := some offset,
                        parent := none }, cache)
         | Except.error e => (Except.error e, cache))) := by
  have hnew := new_eq_cases cache fromDate0 toDate0 periods0 offset timeRule
    kwBegin kwEnd kwNPeriods
  rw [← hf, ← ht, ← hp] at hnew
  constructor
  · intro hC
    rw [hnew, if_pos ((cond_iff f t offset).mpr hC)]
  · intro hC
    rw [hnew, if_neg ((cond_iff f t offset).not.mpr hC)]

theorem claim3_witness :
    DateRange.new [] (some 0) (some 10) none offTick none none none none
        none =
      (match XDateRange.init (some 0) (some 10) none offTick none with
       | Except.ok st =>
         (Except.ok { elems := st.toList, offset := some offTick,
                      parent := none }, ([] : Cache))
       | Except.error e => (Except.error e, ([] : Cache))) := by
  have h := (claim3_cache_decision [] (some 0) (some 10) none offTick none
    none none none (some 0) (some 10) none rfl rfl rfl).2
  exact h (by rintro ⟨-, -, -, h4⟩; exact absurd h4 (by decide))

/-- C8: across successive cacheable requests with the same offset and
boundaries, a second call returns exactly the first call's range and leaves
the cache exactly as the first call left it; when the canonical sequence for
the offset is already cached, a call does not modify the cache at all; and a
call never invalidates or evicts existing entries. -/
theorem claim8_cache_reuse (cache : Cache) (start0 end0 : Option Int)
    (periods : Option Int) (off : Offset) (r1 r2 : DateRange) (c1 c2 : Cache)
    (h1 : DateRange.getCachedRange cache start0 end0 periods (some off) none =
      (Except.ok r1, c1))
    (h2 : DateRange.getCachedRange c1 start0 end0 periods (some off) none =
      (Except.ok r2, c2)) :
    r2 = r1 ∧ c2 = c1 ∧
    (lookupCache cache off.oid ≠ none → c1 = cache) ∧
    (∀ k v, lookupCache cache k = some v → lookupCache c1 k = some v) := by
  simp only [DateRange.getCachedRange] at h1 h2
  cases hc : lookupCache cache off.oid with
  | some cr =>
    simp only [hc, Prod.mk.injEq] at h1
    obtain ⟨hs1, hcc⟩ := h1
    rw [← hcc] at h2
    simp only [hc, Prod.mk.injEq] at h2
    obtain ⟨hs2, hcc2⟩ := h2
    rw [hs1] at hs2
    injection hs2 with hr
    refine ⟨hr.symm, ?_, fun _ => hcc.symm, ?_⟩
    · rw [← hcc2]
      exact hcc
    · intro k v hkv
      rw [← hcc]
      exact hkv
  | none =>
    cases hb : buildCanonical off with
    | error e =>
      simp only [hc, hb, Prod.mk.injEq] at h1
      obtain ⟨hs1, -⟩ := h1
      cases hs1
    | ok canon =>
      simp only [hc, hb, Prod.mk.injEq] at h1
      obtain ⟨hs1, hcc⟩ := h1
      rw [← hcc] at h2
      simp only [lookupCache, if_true, Prod.mk.injEq] at h2
      obtain ⟨hs2, hcc2⟩ := h2
      rw [hs1] at hs2
      injection hs2 with hr
      refine ⟨hr.symm, ?_, fun hne => absurd rfl hne, ?_⟩
      · rw [← hcc2]
        exact hcc
      · intro k v hkv
        rw [← hcc]
        have hk : ¬ off.oid = k := by
          intro he
          rw [he] at hc
          rw [hc] at hkv
          cases hkv
        simp only [lookupCache, hk, if_false]
        exact hkv

theorem claim8_witness :
    ({ elems := [2, 4], offset := some offTick,
       parent := some [0, 2, 4, 6] } : DateRange) =
      { elems := [2, 4], offset := some offTick, parent := some [0, 2, 4, 6] } ∧
    ([(4, crW)] : Cache) = [(4, crW)] ∧
    (lookupCache [(4, crW)] offTick.oid ≠ none → [(4, crW)] = [(4, crW)]) ∧
    (∀ k v, lookupCache [(4, crW)] k = some v →
      lookupCache [(4, crW)] k = some v) :=
  claim8_cache_reuse [(4, crW)] (some 1) none (some 2) offTick
    { elems := [2, 4], offset := some offTick, parent := some [0, 2, 4, 6] }
    { elems := [2, 4], offset := some offTick, parent := some [0, 2, 4, 6] }
    [(4, crW)] [(4, crW)] rfl rfl

/-- C1: evaluating DateRange.shift at a range tagged with a two-calendar-day
stride offset.  The range [0, 2880] (Thursday and Saturday midnights, both on
the stride grid and one stride apart) shifted by 2 appends a tail generated
by the DateRange constructor with its default business-day offset: the
result is [5760, 7200] (Monday, Tuesday), although continuing past the last
element in steps of the range's own offset would give [5760, 8640], so the
appended elements do not advance by the offset the result is tagged with. -/
theorem claim1_shift_default_offset_eval :
    DateRange.shift []
        { elems := [0, 2880], offset := some off2d, parent := none } 2 =
      (Except.ok { elems := [5760, 7200], offset := some off2d,
                   parent := none }, ([] : Cache)) ∧
    [off2d.applyN 2880 1, off2d.applyN 2880 2] = [5760, 8640] ∧
    ([5760, 7200] : List Int) ≠ [5760, 8640] := by
  refine ⟨rfl, by decide, by decide⟩
